import Mathlib


/-! ## Definitions: the embedded program -/

/-- A notification payload as seen by the orchestrator and scheduler:
they only read `title` and `body` (JavaScript falsiness of a missing or
empty string field is modelled by the empty string).  The targeting
fields (token, topic, …) are consumed solely by each provider's own
`canHandle`/`send`, which the embedding keeps abstract. -/
structure Notification where
  title : String
  body : String
deriving Repr, DecidableEq

/-- The receipt returned by a successful provider `send`. -/
structure DeliveryReceipt where
  payload : String
deriving Repr, DecidableEq

/-- A provider as the orchestrator sees it through dynamic dispatch.
`enabled` is the value returned by `isEnabled()`, `validate` returns
`some msg` when `validateNotification` throws `msg` and `none` when it
returns `true`, and `send n i` is the outcome of the `i`-th call (0
based) to `send(n)` inside one `sendWithRetry` loop.  `retryAttempts`
and `retryDelay` are the fields set to `3` and `1000` by the
`BaseProvider` constructor. -/
structure Provider where
  name : String
  enabled : Bool
  canHandle : Notification → Bool
  validate : Notification → Option String
  send : Notification → Nat → Except String DeliveryReceipt
  retryAttempts : Nat
  retryDelay : Nat

/-- `BaseProvider.validateNotification`: throws when neither title nor
body is truthy. -/
def baseValidate (n : Notification) : Option String :=
  if n.title == "" && n.body == "" then
    some "Notification must have either title or body"
  else
    none

deriving instance DecidableEq for Except

/-- Observable outcome of one `sendWithRetry` call: the returned value
(`.ok none` models the `undefined` returned when the loop body never
runs, i.e. `attempts = 0`), the number of `send` invocations, and the
list of waits performed by `delay`. -/
structure RetryResult where
  outcome : Except String (Option DeliveryReceipt)
  sendCalls : Nat
  delays : List Nat
deriving Repr, DecidableEq

/-- The retry loop of `BaseProvider.sendWithRetry`:
`for (let i = 0; i < attempts; i++) { try { return await send(n) }
catch (e) { if (i === attempts - 1) throw e;
await delay(retryDelay * (i + 1)) } }`.
`i` is the loop counter, `delays` the waits accumulated so far, and
the loop is driven structurally by `remaining = attempts - i` (an
invariant of every call): the guard `i < attempts` is
`remaining ≥ 1`, and the final-attempt test `i === attempts - 1` is
`remaining = 1`. -/
def retryGo (send : Nat → Except String DeliveryReceipt) (retryDelay : Nat) :
    Nat → Nat → List Nat → RetryResult
  | i, 0, delays => ⟨.ok none, i, delays⟩
  | i, remaining + 1, delays =>
    match send i with
    | .ok r => ⟨.ok (some r), i + 1, delays⟩
    | .error e =>
      if remaining = 0 then ⟨.error e, i + 1, delays⟩
      else retryGo send retryDelay (i + 1) remaining (delays ++ [retryDelay * (i + 1)])

/-- `provider.sendWithRetry(notification, attempts)`. -/
def Provider.sendWithRetry (p : Provider) (n : Notification) (attempts : Nat) : RetryResult :=
  retryGo (p.send n) p.retryDelay 0 attempts []

/-- Whether `sendWithRetry(n)` (with the provider's default attempt
count, as called by the orchestrator) returns normally. -/
def retrySucceeds (p : Provider) (n : Notification) : Bool :=
  match (p.sendWithRetry n p.retryAttempts).outcome with
  | .ok _ => true
  | .error _ => false

/-- The waits `d·(i+1), d·(i+2), …, d·(i+m)` performed by `m`
consecutive failed attempts starting at loop index `i`. -/
def backoffWaits (d : Nat) : Nat → Nat → List Nat
  | _, 0 => []
  | i, m + 1 => d * (i + 1) :: backoffWaits d (i + 1) m

/-- One entry of the `errors` array accumulated by
`NotificationService.sendNotification`. -/
structure AttemptRecord where
  provider : String
  error : String
  skipped : Bool
deriving Repr, DecidableEq

/-- The object returned by a successful `sendNotification`; fields the
source leaves `undefined` on some paths are `Option`s. -/
structure DispatchSuccess where
  results : List (Option DeliveryReceipt)
  errors : Option (List AttemptRecord)
  totalProviders : Nat
  successfulProviders : Nat
  failedProviders : Nat
  skippedProviders : Option Nat
  usedProvider : Option String
deriving Repr, DecidableEq

/-- The errors thrown by `sendNotification`.  The source throws plain
`Error`s distinguished only by their message; the embedding keeps the
structured cause, and `DispatchError.message` reproduces the exact
message string the source builds. -/
inductive DispatchError where
  | noProviders
  | providerNotFound (requested : String)
  | providerSendFailed (requested : String) (msg : String)
  | allProvidersFailed (attempts : List AttemptRecord)
deriving Repr, DecidableEq

def DispatchError.message : DispatchError → String
  | .noProviders => "No notification providers available"
  | .providerNotFound r => "Provider " ++ r ++ " not found or not enabled"
  | .providerSendFailed r m => "Failed to send via " ++ r ++ ": " ++ m
  | .allProvidersFailed errs =>
      "All providers failed: " ++
        String.intercalate "; " (errs.map (fun e => e.provider ++ ": " ++ e.error))

/-- A record of one `sendWithRetry` invocation performed during a
dispatch: the position of the provider in the service's list, its
name, and how many times its `send` ran. -/
structure SendEvent where
  idx : Nat
  name : String
  calls : Nat
deriving Repr, DecidableEq

/-- The only field of `options` that `sendNotification` reads. -/
structure DispatchOptions where
  provider : Option String
deriving Repr, DecidableEq

/-- A provider the failover loop will actually attempt (enabled and
able to handle the notification). -/
def eligibleFor (n : Notification) (p : Provider) : Bool :=
  p.enabled && p.canHandle n

/-- `String.prototype.toLowerCase()` as applied to provider names
(ASCII). -/
def lowerChar (c : Char) : Char :=
  if 'A' ≤ c && c ≤ 'Z' then Char.ofNat (c.toNat + 32) else c

def lowerStr (s : String) : String := ⟨s.data.map lowerChar⟩

/-- The failover loop of `sendNotification` (the `for` over
`this.providers`): `all` is the full provider list (used for the
`totalProviders` count), `ps` the providers still to try, `i` the
index of the head of `ps`, `errors` the accumulated records and
`trace` the `sendWithRetry` invocations performed so far. -/
def failoverGo (n : Notification) (all : List Provider) :
    List Provider → Nat → List AttemptRecord → List SendEvent →
    Except DispatchError DispatchSuccess × List SendEvent
  | [], _, errors, trace => (.error (.allProvidersFailed errors), trace)
  | p :: rest, i, errors, trace =>
    if !p.enabled then
      failoverGo n all rest (i + 1)
        (errors ++ [⟨p.name, "Provider is disabled", true⟩]) trace
    else if !p.canHandle n then
      failoverGo n all rest (i + 1)
        (errors ++ [⟨p.name, "Provider cannot handle this notification type", true⟩]) trace
    else
      let r := p.sendWithRetry n p.retryAttempts
      match r.outcome with
      | .ok rcpt =>
        (.ok {
          results := [rcpt]
          errors := if errors.length > 0 then some errors else none
          totalProviders := (all.filter (fun q => q.canHandle n)).length
          successfulProviders := 1
          failedProviders := (errors.filter (fun e => !e.skipped)).length
          skippedProviders := some (errors.filter (fun e => e.skipped)).length
          usedProvider := some p.name },
         trace ++ [⟨i, p.name, r.sendCalls⟩])
      | .error e =>
        failoverGo n all rest (i + 1)
          (errors ++ [⟨p.name, e, false⟩]) (trace ++ [⟨i, p.name, r.sendCalls⟩])

/-- `NotificationService.sendNotification(notification, options)`,
with `providers` the service's provider list, already sorted ascending
by configured priority (the constructor sorts it once).  The second
component records every `sendWithRetry` invocation performed. -/
def sendNotification (providers : List Provider) (n : Notification)
    (options : DispatchOptions) :
    Except DispatchError DispatchSuccess × List SendEvent :=
  if providers.length = 0 then (.error .noProviders, [])
  else
    match options.provider with
    | some req =>
      match providers.find? (fun p => lowerStr p.name == lowerStr req) with
      | none => (.error (.providerNotFound req), [])
      | some p =>
        let idx := providers.findIdx (fun q => lowerStr q.name == lowerStr req)
        let r := p.sendWithRetry n p.retryAttempts
        match r.outcome with
        | .ok rcpt =>
          (.ok { results := [rcpt], errors := none, totalProviders := 1,
                 successfulProviders := 1, failedProviders := 0,
                 skippedProviders := none, usedProvider := none },
           [⟨idx, p.name, r.sendCalls⟩])
        | .error e =>
          (.error (.providerSendFailed req e), [⟨idx, p.name, r.sendCalls⟩])
    | none => failoverGo n providers providers 0 [] []

/-- JavaScript `body.substring(0, 50) + (body.length > 50 ? '...' : '')`
(ASCII bodies; `String.take` counts characters). -/
def bodyPreview50 (body : String) : String :=
  body.take 50 ++ (if body.length > 50 then "..." else "")

/-- One element of the `results` array built by
`sendBulkNotifications`. -/
structure BulkItemResult where
  index : Nat
  title : String
  bodyPreview : String
  result : Option DispatchSuccess
  error : Option String
  success : Bool
deriving Repr, DecidableEq

structure BulkResult where
  total : Nat
  successful : Nat
  failed : Nat
  results : List BulkItemResult
deriving Repr, DecidableEq

/-- The loop of `sendBulkNotifications`: one `sendNotification` per
item, in order, failures caught per item. -/
def bulkGo (providers : List Provider) (options : DispatchOptions) :
    List Notification → Nat → List BulkItemResult → Nat → Nat →
    List BulkItemResult × Nat × Nat
  | [], _, acc, s, f => (acc, s, f)
  | n :: rest, i, acc, s, f =>
    match (sendNotification providers n options).1 with
    | .ok res =>
      bulkGo providers options rest (i + 1)
        (acc ++ [⟨i, n.title, bodyPreview50 n.body, some res, none, true⟩]) (s + 1) f
    | .error e =>
      bulkGo providers options rest (i + 1)
        (acc ++ [⟨i, n.title, bodyPreview50 n.body, none, some e.message, false⟩]) s (f + 1)

/-- `NotificationService.sendBulkNotifications(notifications, options)`. -/
def sendBulkNotifications (providers : List Provider) (ns : List Notification)
    (options : DispatchOptions) : BulkResult :=
  let out := bulkGo providers options ns 0 [] 0 0
  ⟨ns.length, out.2.1, out.2.2, out.1⟩

/-- Per-provider entry of the report built by
`validateNotificationForProviders`. -/
structure ProviderCheck where
  name : String
  canHandle : Bool
  valid : Bool
  error : Option String
deriving Repr, DecidableEq

structure ValidationReport where
  valid : Bool
  providers : List ProviderCheck
  errors : List (String × String)
deriving Repr, DecidableEq

/-- The loop of `validateNotificationForProviders`: disabled providers
are passed over without an entry; a provider whose
`validateNotification` throws is recorded invalid with
`canHandle:false`; otherwise `canHandle` is evaluated and a handleable
provider makes the overall report valid. -/
def validateGo (n : Notification) :
    List Provider → Bool → List ProviderCheck → List (String × String) → ValidationReport
  | [], v, checks, errs => ⟨v, checks, errs⟩
  | p :: rest, v, checks, errs =>
    if !p.enabled then validateGo n rest v checks errs
    else
      match p.validate n with
      | none =>
        let ch := p.canHandle n
        validateGo n rest (v || ch) (checks ++ [⟨p.name, ch, true, none⟩]) errs
      | some msg =>
        validateGo n rest v (checks ++ [⟨p.name, false, false, some msg⟩])
          (errs ++ [(p.name, msg)])

/-- `NotificationService.validateNotificationForProviders(notification)`:
no `send` or `sendWithRetry` occurs anywhere below this definition. -/
def validateNotificationForProviders (providers : List Provider)
    (n : Notification) : ValidationReport :=
  validateGo n providers false [] []

/-- A schedule request `{ time, timezone = 'UTC', frequency = 'once' }`.
`none` models an absent (`undefined`) field, picked up by the
destructuring default; an absent `time` is modelled by `""` (both are
falsy and take the same rejection path). -/
structure ScheduleInput where
  time : String
  timezone : Option String
  frequency : Option String
deriving Repr, DecidableEq

/-- The time regex `^([0-1]?[0-9]|2[0-3]):[0-5][0-9]$` used by both
`scheduleNotification` and `validateSchedule`, decided structurally:
the hour is a single digit (the optional `[0-1]` absent), `[0-1][0-9]`,
or `2[0-3]`; the minutes are `[0-5][0-9]`. -/
def timeFormatOk (s : String) : Bool :=
  match s.toList with
  | [h, ':', m1, m2] =>
      h.isDigit && ('0' ≤ m1 && m1 ≤ '5') && m2.isDigit
  | [h1, h2, ':', m1, m2] =>
      (((h1 == '0' || h1 == '1') && h2.isDigit) || (h1 == '2' && ('0' ≤ h2 && h2 ≤ '3')))
        && ('0' ≤ m1 && m1 ≤ '5') && m2.isDigit
  | _ => false

def digitVal (c : Char) : Nat := c.toNat - 48

/-- `time.split(':').map(Number)` destructured to `[hours, minutes]`,
evaluated on strings that already passed the format check. -/
def parseTime (s : String) : Nat × Nat :=
  match s.toList with
  | [h, ':', m1, m2] => (digitVal h, 10 * digitVal m1 + digitVal m2)
  | [h1, h2, ':', m1, m2] => (10 * digitVal h1 + digitVal h2, 10 * digitVal m1 + digitVal m2)
  | _ => (0, 0)

/-- The registry entry stored for one job.  The live `node-cron` task
handle is reduced to its armed flag; `createdAt` (a wall-clock string)
is not modelled. -/
structure SchedJob where
  id : String
  title : String
  bodyPreview : String
  time : String
  timezone : String
  frequency : String
  cronExpression : String
  scheduledFor : String
  options : DispatchOptions
  taskActive : Bool
deriving Repr, DecidableEq

/-- The scheduler's state: the `jobs` map (as an insertion-ordered
association list with unique keys, like a JavaScript `Map`) and the
`running` flag. -/
structure SchedState where
  jobs : List (String × SchedJob)
  running : Bool
deriving Repr, DecidableEq

/-- `Map.prototype.set`: overwrite in place when the key exists,
append otherwise. -/
def mapSet (kvs : List (String × SchedJob)) (k : String) (v : SchedJob) :
    List (String × SchedJob) :=
  if kvs.any (fun kv => kv.1 == k) then
    kvs.map (fun kv => if kv.1 == k then (k, v) else kv)
  else kvs ++ [(k, v)]

/-- The values the `once` branch derives from the wall clock through
`moment.tz`: the target day-of-month and month number used in the cron
expression, and the formatted `scheduledFor` string.  The embedding
takes them as an oracle since they depend on "now" and on the timezone
database. -/
structure OnceEnv where
  date : Nat
  month : Nat
  scheduledFor : String
deriving Repr, DecidableEq

/-- The object returned by a successful `scheduleNotification`. -/
structure ScheduleAck where
  jobId : String
  scheduledFor : String
  frequency : String
  timezone : String
  cronExpression : String
deriving Repr, DecidableEq

/-- `SchedulerService.scheduleNotification(notification, schedule,
notificationService, options)`.  `jobId` stands for the generated
`notif_` identifier and `env` for the clock-derived values of the
`once` branch; a thrown error leaves the state unchanged.  Note the
only validation performed here is the time-format check — the timezone
and frequency checks live in `validateSchedule`, which this function
does not call. -/
def scheduleNotification (st : SchedState) (n : Notification)
    (schedule : ScheduleInput) (options : DispatchOptions)
    (jobId : String) (env : OnceEnv) : SchedState × Except String ScheduleAck :=
  if !st.running then (st, .error "Scheduler service is not running")
  else
    let time := schedule.time
    let timezone := schedule.timezone.getD "UTC"
    let frequency := schedule.frequency.getD "once"
    if time == "" || !timeFormatOk time then
      (st, .error "Invalid time format. Use HH:MM format")
    else
      let hm := parseTime time
      let cronExpression :=
        if frequency == "daily" then
          toString hm.2 ++ " " ++ toString hm.1 ++ " * * *"
        else
          toString hm.2 ++ " " ++ toString hm.1 ++ " " ++ toString env.date ++ " " ++
            toString env.month ++ " *"
      let scheduledFor := if frequency == "daily" then "daily" else env.scheduledFor
      let job : SchedJob :=
        { id := jobId, title := n.title, bodyPreview := n.body.take 100,
          time := time, timezone := timezone, frequency := frequency,
          cronExpression := cronExpression, scheduledFor := scheduledFor,
          options := options, taskActive := true }
      ({ st with jobs := mapSet st.jobs jobId job },
       .ok ⟨jobId, scheduledFor, frequency, timezone, cronExpression⟩)

/-- `SchedulerService.removeJob(jobId)`: stop the task and delete the
entry (`Map.prototype.delete`, written as a filter — keys are unique);
returns whether a job existed. -/
def removeJob (st : SchedState) (jobId : String) : SchedState × Bool :=
  if st.jobs.any (fun kv => kv.1 == jobId) then
    ({ st with jobs := st.jobs.filter (fun kv => kv.1 != jobId) }, true)
  else (st, false)

/-- The callback `scheduleNotification` registers with
`cron.schedule`: dispatch the notification and, when the closed-over
`frequency` is `'once'`, remove the job — in the success branch and in
the failure branch alike.  `success` is whether the inner
`sendNotification` resolved. -/
def fireJob (st : SchedState) (frequency jobId : String) (success : Bool) : SchedState :=
  if success then
    if frequency == "once" then (removeJob st jobId).1 else st
  else
    if frequency == "once" then (removeJob st jobId).1 else st

/-- The read-only snapshot `getActiveJobs()` returns for one job (the
`status` string delegated to the live task handle is outside the
embedding, as is `createdAt`). -/
structure JobView where
  id : String
  title : String
  bodyPreview : String
  time : String
  timezone : String
  frequency : String
  cronExpression : String
  scheduledFor : String
deriving Repr, DecidableEq

/-- `SchedulerService.getActiveJobs()`. -/
def getActiveJobs (st : SchedState) : List JobView :=
  st.jobs.map (fun kv =>
    ⟨kv.2.id, kv.2.title, kv.2.bodyPreview, kv.2.time, kv.2.timezone,
     kv.2.frequency, kv.2.cronExpression, kv.2.scheduledFor⟩)

/-- `SchedulerService.start()`. -/
def SchedState.start (st : SchedState) : SchedState := { st with running := true }

/-- `SchedulerService.stop()`: stop every task, clear the registry,
mark not running. -/
def SchedState.stop (_st : SchedState) : SchedState := ⟨[], false⟩

/-- `SchedulerService.validateSchedule(schedule)`.  `tzKnown` stands
for the moment-timezone database lookup `moment.tz.zone(timezone)`
(`true` exactly when the zone exists).  The `typeof schedule !==
'object'` guard is outside the typed embedding. -/
def validateSchedule (tzKnown : String → Bool) (schedule : ScheduleInput) :
    Except String Bool :=
  if schedule.time == "" then .error "Schedule time is required"
  else if !timeFormatOk schedule.time then .error "Invalid time format. Use HH:MM format"
  else if !tzKnown (schedule.timezone.getD "UTC") then .error "Invalid timezone"
  else if !(schedule.frequency.getD "once" == "once"
      || schedule.frequency.getD "once" == "daily") then
    .error "Frequency must be \"once\" or \"daily\""
  else .ok true

/-- The state-mutating scheduler operations other than `start()`:
scheduling, cancellation (`removeJob`, used by the DELETE route), a
trigger firing, and `stop()`. -/
inductive SchedOp where
  | schedule (n : Notification) (input : ScheduleInput) (options : DispatchOptions)
      (jobId : String) (env : OnceEnv)
  | cancel (jobId : String)
  | fire (frequency jobId : String) (success : Bool)
  | stopOp

def applyOp (st : SchedState) : SchedOp → SchedState
  | .schedule n input options jobId env =>
      (scheduleNotification st n input options jobId env).1
  | .cancel jobId => (removeJob st jobId).1
  | .fire frequency jobId success => fireJob st frequency jobId success
  | .stopOp => SchedState.stop st

def okSend : Notification → Nat → Except String DeliveryReceipt :=
  fun _ _ => .ok ⟨"receipt"⟩

def failSend : Notification → Nat → Except String DeliveryReceipt :=
  fun _ _ => .error "boom"

/-- A provider with constant applicability, base validation, and the
`BaseProvider` retry configuration. -/
def mkProvider (name : String) (enabled ch : Bool)
    (send : Notification → Nat → Except String DeliveryReceipt) : Provider :=
  ⟨name, enabled, fun _ => ch, baseValidate, send, 3, 1000⟩

def sampleN : Notification := ⟨"Welcome!", "Thank you for joining"⟩
def emptyN : Notification := ⟨"", ""⟩
def fbOk : Provider := mkProvider "firebase" true true okSend
def fbDisabled : Provider := mkProvider "firebase" false true okSend
def osOk : Provider := mkProvider "onesignal" true true okSend
def osFail : Provider := mkProvider "onesignal" true true failSend
def psOk : Provider := mkProvider "pusher" true true okSend

/-- A provider whose `send` fails on the first two calls and succeeds
on the third. -/
def flaky2 : Provider :=
  ⟨"firebase", true, fun _ => true, baseValidate,
   fun _ i => if i < 2 then .error "boom" else .ok ⟨"receipt"⟩, 3, 1000⟩

/-- Whether `sendNotification` resolves (the `try` branch of the bulk
loop) for one item. -/
def dispatchOk (providers : List Provider) (options : DispatchOptions)
    (n : Notification) : Bool :=
  match (sendNotification providers n options).1 with
  | .ok _ => true
  | .error _ => false

/-- The per-item records the bulk loop produces for the items `ns`
when the first of them sits at position `i`. -/
def bulkItems (providers : List Provider) (options : DispatchOptions) :
    List Notification → Nat → List BulkItemResult
  | [], _ => []
  | n :: rest, i =>
    (match (sendNotification providers n options).1 with
     | .ok res => ⟨i, n.title, bodyPreview50 n.body, some res, none, true⟩
     | .error e => ⟨i, n.title, bodyPreview50 n.body, none, some e.message, false⟩)
      :: bulkItems providers options rest (i + 1)

/-- A provider that succeeds only for notifications titled `"ok"` —
everything else is unsupported and the dispatch for it fails. -/
def selective : Provider :=
  ⟨"firebase", true, fun n => n.title == "ok", baseValidate, okSend, 3, 1000⟩

/-- The report entry `validateNotificationForProviders` pushes for one
enabled provider. -/
def providerCheckOf (n : Notification) (p : Provider) : ProviderCheck :=
  match p.validate n with
  | none => ⟨p.name, p.canHandle n, true, none⟩
  | some msg => ⟨p.name, false, false, some msg⟩

/-- An always-applicable enabled provider (safe defaults, like the
Pusher variant). -/
def permissive : Provider :=
  ⟨"pusher", true, fun _ => true, baseValidate, okSend, 3, 1000⟩

def runningEmpty : SchedState := ⟨[], true⟩
def stoppedState : SchedState := ⟨[], false⟩
def weeklySpec : ScheduleInput := ⟨"09:00", some "UTC", some "weekly"⟩
def badTzSpec : ScheduleInput := ⟨"09:00", some "Invalid/Zone", some "once"⟩
def onceEnv1 : OnceEnv := ⟨11, 10, "2026-10-11 09:00:00 UTC"⟩

def onceJob : SchedJob :=
  ⟨"j1", "Welcome!", "Thank you", "09:00", "UTC", "once", "0 9 11 10 *",
   "2026-10-11 09:00:00 UTC", ⟨none⟩, true⟩

def dailyJob : SchedJob :=
  ⟨"j2", "Welcome!", "Thank you", "09:00", "UTC", "daily", "0 9 * * *",
   "daily", ⟨none⟩, true⟩

def twoJobState : SchedState := ⟨[("j1", onceJob), ("j2", dailyJob)], true⟩


/-! ## Theorems -/

/-- Reaching the first successful attempt: if every attempt in
`[i, k)` throws and attempt `k` (still inside the loop bound) succeeds
with `r`, the loop returns `r` after `k + 1` calls, having waited
`d·(i+1), d·(i+2), …, d·k`. -/
theorem retryGo_first_success (send : Nat → Except String DeliveryReceipt)
    (d : Nat) (k : Nat) (r : DeliveryReceipt) (hr : send k = .ok r) :
    ∀ remaining i, i ≤ k → k < i + remaining →
    (∀ j, i ≤ j → j < k → ∃ e, send j = .error e) →
    ∀ delays, retryGo send d i remaining delays =
      ⟨.ok (some r), k + 1, delays ++ backoffWaits d i (k - i)⟩ := by
  suffices h : ∀ m remaining i, k - i = m → i ≤ k → k < i + remaining →
      (∀ j, i ≤ j → j < k → ∃ e, send j = .error e) →
      ∀ delays, retryGo send d i remaining delays =
        ⟨.ok (some r), k + 1, delays ++ backoffWaits d i (k - i)⟩ by
    intro remaining i hik hrem hfail delays
    exact h (k - i) remaining i rfl hik hrem hfail delays
  intro m
  induction m with
  | zero =>
    intro remaining i hm hik hrem _ delays
    have hik' : i = k := by omega
    subst hik'
    obtain ⟨rem', hrem'⟩ : ∃ rem', remaining = rem' + 1 := ⟨remaining - 1, by omega⟩
    subst hrem'
    simp [retryGo, hr, hm, backoffWaits]
  | succ m ih =>
    intro remaining i hm hik hrem hfail delays
    have hik2 : i < k := by omega
    obtain ⟨e, he⟩ := hfail i (Nat.le_refl i) hik2
    obtain ⟨rem', hrem'⟩ : ∃ rem', remaining = rem' + 1 := ⟨remaining - 1, by omega⟩
    subst hrem'
    have hrem0 : rem' ≠ 0 := by omega
    have hstep : retryGo send d i (rem' + 1) delays =
        retryGo send d (i + 1) rem' (delays ++ [d * (i + 1)]) := by
      simp [retryGo, he, hrem0]
    rw [hstep]
    have hrec := ih rem' (i + 1) (by omega) (by omega) (by omega)
      (fun j hj1 hj2 => hfail j (by omega) hj2) (delays ++ [d * (i + 1)])
    rw [hrec]
    have hki : k - i = (k - (i + 1)) + 1 := by omega
    rw [hki, backoffWaits]
    simp [List.append_assoc]

/-- Exhausting every attempt: if the `remaining` attempts starting at
loop index `i` all throw, the loop re-raises the error of the final
attempt (index `i + remaining - 1`) after `i + remaining` calls,
having waited `d·(i+1), …, d·(i+remaining-1)`. -/
theorem retryGo_all_fail (send : Nat → Except String DeliveryReceipt) (d : Nat) :
    ∀ remaining i e, 1 ≤ remaining →
    send (i + remaining - 1) = .error e →
    (∀ j, i ≤ j → j < i + remaining → ∃ e', send j = .error e') →
    ∀ delays, retryGo send d i remaining delays =
      ⟨.error e, i + remaining, delays ++ backoffWaits d i (remaining - 1)⟩ := by
  intro remaining
  induction remaining with
  | zero => intro i e h1; omega
  | succ m ih =>
    intro i e _ hlast hfail delays
    by_cases hm : m = 0
    · subst hm
      have hie : send i = .error e := by simpa using hlast
      simp [retryGo, hie, backoffWaits]
    · obtain ⟨e', he'⟩ := hfail i (Nat.le_refl i) (by omega)
      have hstep : retryGo send d i (m + 1) delays =
          retryGo send d (i + 1) m (delays ++ [d * (i + 1)]) := by
        simp [retryGo, he', hm]
      rw [hstep]
      have hlast' : send (i + 1 + m - 1) = .error e := by
        have : i + 1 + m - 1 = i + (m + 1) - 1 := by omega
        rw [this]; exact hlast
      have hrec := ih (i + 1) e (by omega) hlast'
        (fun j hj1 hj2 => hfail j (by omega) (by omega)) (delays ++ [d * (i + 1)])
      rw [hrec]
      obtain ⟨m', hm'⟩ : ∃ m', m = m' + 1 := ⟨m - 1, by omega⟩
      subst hm'
      have h2 : i + 1 + (m' + 1) = i + (m' + 1 + 1) := by omega
      rw [h2]
      have h3 : m' + 1 + 1 - 1 = m' + 1 := by omega
      rw [h3, backoffWaits]
      simp [List.append_assoc]

theorem retrySucceeds_ok (p : Provider) (n : Notification)
    (h : retrySucceeds p n = true) :
    ∃ v, (p.sendWithRetry n p.retryAttempts).outcome = .ok v := by
  unfold retrySucceeds at h
  cases hv : (p.sendWithRetry n p.retryAttempts).outcome with
  | ok v => exact ⟨v, rfl⟩
  | error e => rw [hv] at h; simp at h

theorem retrySucceeds_err (p : Provider) (n : Notification)
    (h : retrySucceeds p n = false) :
    ∃ e, (p.sendWithRetry n p.retryAttempts).outcome = .error e := by
  unfold retrySucceeds at h
  cases hv : (p.sendWithRetry n p.retryAttempts).outcome with
  | ok v => rw [hv] at h; simp at h
  | error e => exact ⟨e, rfl⟩

/-- If no provider in `pre` is enabled, able to handle `n`, and
retry-successful, while `p` is all three, the failover loop returns
success with `usedProvider = p.name`, and every `sendWithRetry`
invocation it performed concerns a provider at position at most that
of `p` — the providers after `p` are never sent through. -/
theorem failoverGo_first_success (n : Notification) (all : List Provider) :
    ∀ (pre : List Provider) (p : Provider) (post : List Provider) (i : Nat)
      (errors : List AttemptRecord) (trace : List SendEvent),
    (∀ q ∈ pre, ¬(q.enabled = true ∧ q.canHandle n = true ∧ retrySucceeds q n = true)) →
    p.enabled = true → p.canHandle n = true → retrySucceeds p n = true →
    ∃ s tr, failoverGo n all (pre ++ p :: post) i errors trace = (.ok s, trace ++ tr) ∧
      s.usedProvider = some p.name ∧ s.successfulProviders = 1 ∧
      ∀ ev ∈ tr, ev.idx ≤ i + pre.length := by
  intro pre
  induction pre with
  | nil =>
    intro p post i errors trace _ hen hch hsucc
    obtain ⟨v, hv⟩ := retrySucceeds_ok p n hsucc
    refine ⟨{ results := [v],
              errors := if errors.length > 0 then some errors else none,
              totalProviders := (all.filter (fun q => q.canHandle n)).length,
              successfulProviders := 1,
              failedProviders := (errors.filter (fun e => !e.skipped)).length,
              skippedProviders := some (errors.filter (fun e => e.skipped)).length,
              usedProvider := some p.name },
            [⟨i, p.name, (p.sendWithRetry n p.retryAttempts).sendCalls⟩], ?_, rfl, rfl, ?_⟩
    · simp [failoverGo, hen, hch, hv]
    · intro ev hev
      simp only [List.mem_singleton] at hev
      subst hev
      simp
  | cons q pre ih =>
    intro p post i errors trace hpre hen hch hsucc
    have hq := hpre q (List.mem_cons_self q pre)
    have hpre' : ∀ q' ∈ pre, ¬(q'.enabled = true ∧ q'.canHandle n = true ∧ retrySucceeds q' n = true) :=
      fun q' hq' => hpre q' (List.mem_cons_of_mem q hq')
    cases hqe : q.enabled with
    | false =>
      obtain ⟨s, tr, heq, hu, h1, hidx⟩ := ih p post (i + 1)
        (errors ++ [⟨q.name, "Provider is disabled", true⟩]) trace hpre' hen hch hsucc
      refine ⟨s, tr, ?_, hu, h1, ?_⟩
      · simpa [failoverGo, hqe] using heq
      · intro ev hev
        have := hidx ev hev
        simp only [List.length_cons]
        omega
    | true =>
      cases hqc : q.canHandle n with
      | false =>
        obtain ⟨s, tr, heq, hu, h1, hidx⟩ := ih p post (i + 1)
          (errors ++ [⟨q.name, "Provider cannot handle this notification type", true⟩])
          trace hpre' hen hch hsucc
        refine ⟨s, tr, ?_, hu, h1, ?_⟩
        · simpa [failoverGo, hqe, hqc] using heq
        · intro ev hev
          have := hidx ev hev
          simp only [List.length_cons]
          omega
      | true =>
        have hqs : retrySucceeds q n = false := by
          cases hv : retrySucceeds q n with
          | false => rfl
          | true => exact absurd ⟨hqe, hqc, hv⟩ hq
        obtain ⟨e, he⟩ := retrySucceeds_err q n hqs
        obtain ⟨s, tr, heq, hu, h1, hidx⟩ := ih p post (i + 1)
          (errors ++ [⟨q.name, e, false⟩])
          (trace ++ [⟨i, q.name, (q.sendWithRetry n q.retryAttempts).sendCalls⟩])
          hpre' hen hch hsucc
        refine ⟨s, ⟨i, q.name, (q.sendWithRetry n q.retryAttempts).sendCalls⟩ :: tr, ?_, hu, h1, ?_⟩
        · rw [show trace ++ ⟨i, q.name, (q.sendWithRetry n q.retryAttempts).sendCalls⟩ :: tr =
              (trace ++ [⟨i, q.name, (q.sendWithRetry n q.retryAttempts).sendCalls⟩]) ++ tr by simp]
          simpa [failoverGo, hqe, hqc, he] using heq
        · intro ev hev
          rcases List.mem_cons.mp hev with h | h
          · subst h; simp
          · have := hidx ev h
            simp only [List.length_cons]
            omega

/-- If every eligible provider fails its retries, the failover loop
throws the aggregate error; every provider processed contributes
exactly one record (skips included), and the records not marked
skipped correspond exactly to the eligible providers. -/
theorem failoverGo_all_fail (n : Notification) (all : List Provider) :
    ∀ (ps : List Provider) (i : Nat) (errors : List AttemptRecord) (trace : List SendEvent),
    (∀ q ∈ ps, eligibleFor n q = true → retrySucceeds q n = false) →
    ∃ errs tr, failoverGo n all ps i errors trace =
        (.error (.allProvidersFailed (errors ++ errs)), trace ++ tr) ∧
      errs.length = ps.length ∧
      (errs.filter (fun e => !e.skipped)).length = (ps.filter (eligibleFor n)).length := by
  intro ps
  induction ps with
  | nil =>
    intro i errors trace _
    exact ⟨[], [], by simp [failoverGo], by simp, by simp⟩
  | cons q ps ih =>
    intro i errors trace hfail
    have hfail' : ∀ q' ∈ ps, eligibleFor n q' = true → retrySucceeds q' n = false :=
      fun q' hq' => hfail q' (List.mem_cons_of_mem q hq')
    cases hqe : q.enabled with
    | false =>
      obtain ⟨errs, tr, heq, hlen, hcnt⟩ := ih (i + 1)
        (errors ++ [⟨q.name, "Provider is disabled", true⟩]) trace hfail'
      refine ⟨⟨q.name, "Provider is disabled", true⟩ :: errs, tr, ?_, ?_, ?_⟩
      · rw [show errors ++ ⟨q.name, "Provider is disabled", true⟩ :: errs =
            (errors ++ [⟨q.name, "Provider is disabled", true⟩]) ++ errs by simp]
        simpa [failoverGo, hqe] using heq
      · simp [hlen]
      · simpa [List.filter, eligibleFor, hqe] using hcnt
    | true =>
      cases hqc : q.canHandle n with
      | false =>
        obtain ⟨errs, tr, heq, hlen, hcnt⟩ := ih (i + 1)
          (errors ++ [⟨q.name, "Provider cannot handle this notification type", true⟩]) trace hfail'
        refine ⟨⟨q.name, "Provider cannot handle this notification type", true⟩ :: errs, tr, ?_, ?_, ?_⟩
        · rw [show errors ++ ⟨q.name, "Provider cannot handle this notification type", true⟩ :: errs =
              (errors ++ [⟨q.name, "Provider cannot handle this notification type", true⟩]) ++ errs by simp]
          simpa [failoverGo, hqe, hqc] using heq
        · simp [hlen]
        · simpa [List.filter, eligibleFor, hqe, hqc] using hcnt
      | true =>
        have hqs : retrySucceeds q n = false :=
          hfail q (List.mem_cons_self q ps) (by simp [eligibleFor, hqe, hqc])
        obtain ⟨e, he⟩ := retrySucceeds_err q n hqs
        obtain ⟨errs, tr, heq, hlen, hcnt⟩ := ih (i + 1)
          (errors ++ [⟨q.name, e, false⟩])
          (trace ++ [⟨i, q.name, (q.sendWithRetry n q.retryAttempts).sendCalls⟩]) hfail'
        refine ⟨⟨q.name, e, false⟩ :: errs,
          ⟨i, q.name, (q.sendWithRetry n q.retryAttempts).sendCalls⟩ :: tr, ?_, ?_, ?_⟩
        · rw [show errors ++ ⟨q.name, e, false⟩ :: errs =
              (errors ++ [⟨q.name, e, false⟩]) ++ errs by simp,
            show trace ++ ⟨i, q.name, (q.sendWithRetry n q.retryAttempts).sendCalls⟩ :: tr =
              (trace ++ [⟨i, q.name, (q.sendWithRetry n q.retryAttempts).sendCalls⟩]) ++ tr by simp]
          simpa [failoverGo, hqe, hqc, he] using heq
        · simp [hlen]
        · simpa [List.filter, eligibleFor, hqe, hqc] using hcnt

/-- C1: in the failover path of `sendNotification` (no explicit
provider in the options), providers are iterated in list (priority)
order; whenever `p` is the first provider that is enabled, can handle
the notification, and whose `sendWithRetry` succeeds, the dispatch
returns success immediately with `usedProvider = p.name`, and the
`send` of every lower-priority provider after `p` is never invoked
(every recorded `sendWithRetry` invocation concerns a position at most
`p`'s). -/
theorem failover_uses_first_succeeding_provider
    (pre : List Provider) (p : Provider) (post : List Provider) (n : Notification)
    (hpre : ∀ q ∈ pre, ¬(q.enabled = true ∧ q.canHandle n = true ∧ retrySucceeds q n = true))
    (hen : p.enabled = true) (hch : p.canHandle n = true)
    (hsucc : retrySucceeds p n = true) :
    ∃ s tr, sendNotification (pre ++ p :: post) n ⟨none⟩ = (.ok s, tr) ∧
      s.usedProvider = some p.name ∧ s.successfulProviders = 1 ∧
      ∀ ev ∈ tr, ev.idx ≤ pre.length := by
  have hlen : ¬(pre ++ p :: post).length = 0 := by simp
  obtain ⟨s, tr, heq, hu, h1, hidx⟩ :=
    failoverGo_first_success n (pre ++ p :: post) pre p post 0 [] [] hpre hen hch hsucc
  refine ⟨s, tr, ?_, hu, h1, fun ev hev => by simpa using hidx ev hev⟩
  simpa [sendNotification, hlen] using heq

/-- C1 witness: with a disabled provider first, the first eligible and
succeeding provider `osOk` is used, and no later provider is attempted. -/
theorem failover_uses_first_succeeding_provider_witness :
    ∃ s tr, sendNotification [fbDisabled, osOk, psOk] sampleN ⟨none⟩ = (.ok s, tr) ∧
      s.usedProvider = some "onesignal" ∧ s.successfulProviders = 1 ∧
      ∀ ev ∈ tr, ev.idx ≤ 1 :=
  failover_uses_first_succeeding_provider [fbDisabled] osOk [psOk] sampleN
    (by decide) (by decide) (by decide) (by decide)

/-- C2 (amended): the named provider is looked up case-insensitively;
when no provider of that name is in the list, dispatch fails with the
`ProviderNotFoundError` message and performs no `sendWithRetry` at all
(empty trace, hence no failover); when a provider of that name is
present — enabled or not — exactly its `sendWithRetry` is invoked, and
a failure is propagated as the wrapped send error without failover. -/
theorem named_dispatch_lookup (providers : List Provider) (n : Notification)
    (req : String) (hne : providers ≠ []) :
    (providers.find? (fun q => lowerStr q.name == lowerStr req) = none →
      sendNotification providers n ⟨some req⟩ = (.error (.providerNotFound req), [])) ∧
    (∀ p, providers.find? (fun q => lowerStr q.name == lowerStr req) = some p →
      (∀ e, (p.sendWithRetry n p.retryAttempts).outcome = .error e →
        (sendNotification providers n ⟨some req⟩).1 = .error (.providerSendFailed req e)) ∧
      (sendNotification providers n ⟨some req⟩).2 =
        [⟨providers.findIdx (fun q => lowerStr q.name == lowerStr req), p.name,
          (p.sendWithRetry n p.retryAttempts).sendCalls⟩]) := by
  have hlen : ¬providers.length = 0 := by simpa using hne
  constructor
  · intro hf
    simp [sendNotification, hlen, hf]
  · intro p hf
    constructor
    · intro e he
      simp [sendNotification, hlen, hf, he]
    · cases ho : (p.sendWithRetry n p.retryAttempts).outcome with
      | ok v => simp [sendNotification, hlen, hf, ho]
      | error e => simp [sendNotification, hlen, hf, ho]

/-- C2 witness: instantiated at a single failing provider found by a
case-insensitive name match. -/
theorem named_dispatch_lookup_witness :
    (([osFail] : List Provider).find? (fun q => lowerStr q.name == lowerStr "OneSignal") = none →
      sendNotification [osFail] sampleN ⟨some "OneSignal"⟩ =
        (.error (.providerNotFound "OneSignal"), [])) ∧
    (∀ p, ([osFail] : List Provider).find? (fun q => lowerStr q.name == lowerStr "OneSignal") = some p →
      (∀ e, (p.sendWithRetry sampleN p.retryAttempts).outcome = .error e →
        (sendNotification [osFail] sampleN ⟨some "OneSignal"⟩).1 =
          .error (.providerSendFailed "OneSignal" e)) ∧
      (sendNotification [osFail] sampleN ⟨some "OneSignal"⟩).2 =
        [⟨([osFail] : List Provider).findIdx (fun q => lowerStr q.name == lowerStr "OneSignal"),
          p.name, (p.sendWithRetry sampleN p.retryAttempts).sendCalls⟩]) :=
  named_dispatch_lookup [osFail] sampleN "OneSignal" (by simp)

/-- C2 counterexample: a present but runtime-disabled provider is not
rejected with `ProviderNotFoundError` — its `sendWithRetry` runs (the
trace is non-empty) and the dispatch succeeds. -/
theorem named_dispatch_disabled_counterexample :
    (sendNotification [fbDisabled] sampleN ⟨some "Firebase"⟩).1 ≠
      .error (.providerNotFound "Firebase") ∧
    (sendNotification [fbDisabled] sampleN ⟨some "Firebase"⟩).2 ≠ [] ∧
    (sendNotification [fbDisabled] sampleN ⟨some "Firebase"⟩).1 =
      .ok { results := [some ⟨"receipt"⟩], errors := none, totalProviders := 1,
            successfulProviders := 1, failedProviders := 0,
            skippedProviders := none, usedProvider := none } := by
  refine ⟨by decide, by decide, by decide⟩

/-- C3 (amended): when every eligible (enabled and can-handle)
provider's `sendWithRetry` fails, dispatch throws the aggregate
"all providers failed" error; its recorded list has one entry per
configured provider — skips included — so its length equals the number
of providers processed, and the entries not marked skipped number
exactly the eligible providers (skipped providers are never counted as
failed). -/
theorem allfail_aggregates_every_record (providers : List Provider) (n : Notification)
    (hne : providers ≠ [])
    (hfail : ∀ q ∈ providers, eligibleFor n q = true → retrySucceeds q n = false) :
    ∃ errs tr, sendNotification providers n ⟨none⟩ =
        (.error (.allProvidersFailed errs), tr) ∧
      errs.length = providers.length ∧
      (errs.filter (fun e => !e.skipped)).length =
        (providers.filter (eligibleFor n)).length := by
  have hlen : ¬providers.length = 0 := by simpa using hne
  obtain ⟨errs, tr, heq, hlen2, hcnt⟩ :=
    failoverGo_all_fail n providers providers 0 [] [] hfail
  refine ⟨errs, tr, ?_, hlen2, hcnt⟩
  simpa [sendNotification, hlen] using heq

/-- C3 witness: one skipped (disabled) provider and one eligible
failing provider: two records, one of them a failure. -/
theorem allfail_aggregates_every_record_witness :
    ∃ errs tr, sendNotification [fbDisabled, osFail] sampleN ⟨none⟩ =
        (.error (.allProvidersFailed errs), tr) ∧
      errs.length = ([fbDisabled, osFail] : List Provider).length ∧
      (errs.filter (fun e => !e.skipped)).length =
        (([fbDisabled, osFail] : List Provider).filter (eligibleFor sampleN)).length :=
  allfail_aggregates_every_record [fbDisabled, osFail] sampleN (by simp) (by decide)

/-- C3 counterexample: with a disabled provider and one eligible
failing provider, the aggregate's record list has length 2, while the
number of eligible providers is 1 — the lengths differ. -/
theorem allfail_eligible_count_counterexample :
    (sendNotification [fbDisabled, osFail] sampleN ⟨none⟩).1 =
      .error (.allProvidersFailed
        [⟨"firebase", "Provider is disabled", true⟩, ⟨"onesignal", "boom", false⟩]) ∧
    (([fbDisabled, osFail] : List Provider).filter (eligibleFor sampleN)).length = 1 ∧
    (2 : Nat) ≠ 1 := by
  refine ⟨by decide, by decide, by decide⟩

/-- C4 (amended): `sendWithRetry` returns on the first successful
`send` without exhausting the remaining attempts — with the first
success at 0-based index `k` it makes exactly `k + 1` calls, waiting
`retryDelay·1, …, retryDelay·k` in between (so attempts = 3 with a
provider failing twice then succeeding makes exactly 3 calls with
escalating waits of 1× and 2× the base delay — there is no 3× wait) —
and when all `attempts` calls throw it re-raises the last error after
waiting `retryDelay·1, …, retryDelay·(attempts-1)`. -/
theorem sendWithRetry_behaviour (p : Provider) (n : Notification) (attempts k : Nat)
    (hfail : ∀ i, i < k → ∃ e, p.send n i = .error e) :
    (∀ r, k < attempts → p.send n k = .ok r →
      p.sendWithRetry n attempts =
        ⟨.ok (some r), k + 1, backoffWaits p.retryDelay 0 k⟩) ∧
    (∀ e, k = attempts → 1 ≤ attempts → p.send n (attempts - 1) = .error e →
      p.sendWithRetry n attempts =
        ⟨.error e, attempts, backoffWaits p.retryDelay 0 (attempts - 1)⟩) := by
  constructor
  · intro r hk hr
    have h := retryGo_first_success (p.send n) p.retryDelay k r hr attempts 0
      (Nat.zero_le k) (by omega) (fun j _ hj2 => hfail j hj2) []
    simpa [Provider.sendWithRetry] using h
  · intro e hk h1 he
    subst hk
    have h := retryGo_all_fail (p.send n) p.retryDelay k 0 e h1
      (by simpa using he) (fun j _ hj2 => hfail j (by omega)) []
    simpa [Provider.sendWithRetry] using h

/-- C4 witness: the fail-twice-then-succeed provider with 3 attempts:
success after exactly 3 `send` calls, with waits 1000 and 2000. -/
theorem sendWithRetry_behaviour_witness :
    flaky2.sendWithRetry sampleN 3 = ⟨.ok (some ⟨"receipt"⟩), 3, [1000, 2000]⟩ := by
  have h := (sendWithRetry_behaviour flaky2 sampleN 3 2
    (fun i hi => ⟨"boom", by simp [flaky2, hi]⟩)).1 ⟨"receipt"⟩ (by omega) (by decide)
  simpa [backoffWaits] using h

/-- C4 counterexample: between the three attempts there are exactly
two waits, 1× and 2× the base delay — not the claimed 1×, 2×, 3×. -/
theorem sendWithRetry_delays_counterexample :
    (flaky2.sendWithRetry sampleN 3).delays = [1000, 2000] ∧
    (flaky2.sendWithRetry sampleN 3).delays ≠ [1000, 2000, 3000] := by
  refine ⟨by decide, by decide⟩

theorem bulkGo_spec (providers : List Provider) (options : DispatchOptions) :
    ∀ (ns : List Notification) (i : Nat) (acc : List BulkItemResult) (s f : Nat),
      bulkGo providers options ns i acc s f =
        (acc ++ bulkItems providers options ns i,
         s + ns.countP (dispatchOk providers options),
         f + ns.countP (fun n => !dispatchOk providers options n)) := by
  intro ns
  induction ns with
  | nil => intro i acc s f; simp [bulkGo, bulkItems]
  | cons n rest ih =>
    intro i acc s f
    cases hd : (sendNotification providers n options).1 with
    | ok res =>
      have hok : dispatchOk providers options n = true := by simp [dispatchOk, hd]
      rw [show bulkGo providers options (n :: rest) i acc s f =
          bulkGo providers options rest (i + 1)
            (acc ++ [⟨i, n.title, bodyPreview50 n.body, some res, none, true⟩]) (s + 1) f by
        simp [bulkGo, hd]]
      rw [ih]
      simp only [Prod.mk.injEq]
      refine ⟨by simp [bulkItems, hd, List.append_assoc], ?_, ?_⟩ <;>
        · simp [List.countP_cons, hok]
          try omega
    | error e =>
      have hok : dispatchOk providers options n = false := by simp [dispatchOk, hd]
      rw [show bulkGo providers options (n :: rest) i acc s f =
          bulkGo providers options rest (i + 1)
            (acc ++ [⟨i, n.title, bodyPreview50 n.body, none, some e.message, false⟩]) s (f + 1) by
        simp [bulkGo, hd]]
      rw [ih]
      simp only [Prod.mk.injEq]
      refine ⟨by simp [bulkItems, hd, List.append_assoc], ?_, ?_⟩ <;>
        · simp [List.countP_cons, hok]
          try omega

theorem bulkItems_length (providers : List Provider) (options : DispatchOptions) :
    ∀ (ns : List Notification) (i : Nat),
      (bulkItems providers options ns i).length = ns.length := by
  intro ns
  induction ns with
  | nil => intro i; simp [bulkItems]
  | cons n rest ih => intro i; simp [bulkItems, ih]

theorem bulkItems_index (providers : List Provider) (options : DispatchOptions) :
    ∀ (ns : List Notification) (i j : Nat)
      (hj : j < (bulkItems providers options ns i).length),
      ((bulkItems providers options ns i).get ⟨j, hj⟩).index = i + j := by
  intro ns
  induction ns with
  | nil => intro i j hj; simp [bulkItems] at hj
  | cons n rest ih =>
    intro i j hj
    cases j with
    | zero =>
      cases hd : (sendNotification providers n options).1 <;>
        simp [bulkItems, hd]
    | succ j =>
      have hj' : j < (bulkItems providers options rest (i + 1)).length := by
        simpa [bulkItems] using hj
      have := ih (i + 1) j hj'
      cases hd : (sendNotification providers n options).1 with
      | ok res =>
        rw [show ((bulkItems providers options (n :: rest) i).get ⟨j + 1, hj⟩) =
            (bulkItems providers options rest (i + 1)).get ⟨j, hj'⟩ by
          simp [bulkItems, hd]]
        omega
      | error e =>
        rw [show ((bulkItems providers options (n :: rest) i).get ⟨j + 1, hj⟩) =
            (bulkItems providers options rest (i + 1)).get ⟨j, hj'⟩ by
          simp [bulkItems, hd]]
        omega

/-- C7: `sendBulkNotifications` processes the items one at a time in
original order; a failing item never aborts the rest.  When exactly
one item `x` (at position `pre.length`) fails and every other item
succeeds, the aggregate is `total = N`, `successful = N - 1`,
`failed = 1`, there is one result per item, and the result at every
position `j` carries `index = j`. -/
theorem bulk_one_failure_counts (providers : List Provider) (options : DispatchOptions)
    (pre post : List Notification) (x : Notification)
    (hpre : ∀ n ∈ pre, dispatchOk providers options n = true)
    (hpost : ∀ n ∈ post, dispatchOk providers options n = true)
    (hx : dispatchOk providers options x = false) :
    (sendBulkNotifications providers (pre ++ x :: post) options).total =
      (pre ++ x :: post).length ∧
    (sendBulkNotifications providers (pre ++ x :: post) options).successful =
      (pre ++ x :: post).length - 1 ∧
    (sendBulkNotifications providers (pre ++ x :: post) options).failed = 1 ∧
    (sendBulkNotifications providers (pre ++ x :: post) options).results.length =
      (pre ++ x :: post).length ∧
    ∀ j (hj : j < (sendBulkNotifications providers (pre ++ x :: post) options).results.length),
      ((sendBulkNotifications providers (pre ++ x :: post) options).results.get ⟨j, hj⟩).index = j := by
  have hgo := bulkGo_spec providers options (pre ++ x :: post) 0 [] 0 0
  have hcount1 : (pre ++ x :: post).countP (dispatchOk providers options) =
      pre.length + post.length := by
    rw [List.countP_append, List.countP_cons]
    have h1 : pre.countP (dispatchOk providers options) = pre.length :=
      List.countP_eq_length.mpr (fun a ha => by simp [hpre a ha])
    have h2 : post.countP (dispatchOk providers options) = post.length :=
      List.countP_eq_length.mpr (fun a ha => by simp [hpost a ha])
    simp [h1, h2, hx]
  have hcount2 : (pre ++ x :: post).countP (fun n => !dispatchOk providers options n) = 1 := by
    rw [List.countP_append, List.countP_cons]
    have h1 : pre.countP (fun n => !dispatchOk providers options n) = 0 := by
      rw [List.countP_eq_zero]
      intro a ha
      simp [hpre a ha]
    have h2 : post.countP (fun n => !dispatchOk providers options n) = 0 := by
      rw [List.countP_eq_zero]
      intro a ha
      simp [hpost a ha]
    simp [h1, h2, hx]
  have hres : (sendBulkNotifications providers (pre ++ x :: post) options).results =
      bulkItems providers options (pre ++ x :: post) 0 := by
    simp [sendBulkNotifications, hgo]
  refine ⟨rfl, ?_, ?_, ?_, ?_⟩
  · simp [sendBulkNotifications, hgo, hcount1]
    try omega
  · simp [sendBulkNotifications, hgo, hcount2]
  · rw [hres, bulkItems_length]
  · intro j hj
    have hj' : j < (bulkItems providers options (pre ++ x :: post) 0).length := by
      rw [← hres]; exact hj
    rw [List.get_of_eq hres ⟨j, hj⟩]
    simpa using bulkItems_index providers options (pre ++ x :: post) 0 j hj'

/-- C7 witness: three items, the middle one failing. -/
theorem bulk_one_failure_counts_witness :
    (sendBulkNotifications [selective] [⟨"ok", "a"⟩, ⟨"bad", "b"⟩, ⟨"ok", "c"⟩] ⟨none⟩).total = 3 ∧
    (sendBulkNotifications [selective] [⟨"ok", "a"⟩, ⟨"bad", "b"⟩, ⟨"ok", "c"⟩] ⟨none⟩).successful = 2 ∧
    (sendBulkNotifications [selective] [⟨"ok", "a"⟩, ⟨"bad", "b"⟩, ⟨"ok", "c"⟩] ⟨none⟩).failed = 1 ∧
    (sendBulkNotifications [selective] [⟨"ok", "a"⟩, ⟨"bad", "b"⟩, ⟨"ok", "c"⟩] ⟨none⟩).results.length = 3 := by
  obtain ⟨h1, h2, h3, h4, _⟩ := bulk_one_failure_counts [selective] ⟨none⟩
    [⟨"ok", "a"⟩] [⟨"ok", "c"⟩] ⟨"bad", "b"⟩ (by decide) (by decide) (by decide)
  exact ⟨h1, h2, h3, h4⟩

theorem validateGo_valid (n : Notification) :
    ∀ (ps : List Provider) (v : Bool) (checks : List ProviderCheck)
      (errs : List (String × String)),
      (validateGo n ps v checks errs).valid =
        (v || ps.any (fun p => p.enabled && (p.validate n).isNone && p.canHandle n)) := by
  intro ps
  induction ps with
  | nil => intro v checks errs; simp [validateGo]
  | cons p rest ih =>
    intro v checks errs
    cases hpe : p.enabled with
    | false => simp [validateGo, hpe, ih]
    | true =>
      cases hpv : p.validate n with
      | none => simp [validateGo, hpe, hpv, ih, Bool.or_assoc]
      | some msg => simp [validateGo, hpe, hpv, ih]

theorem validateGo_providers (n : Notification) :
    ∀ (ps : List Provider) (v : Bool) (checks : List ProviderCheck)
      (errs : List (String × String)),
      (validateGo n ps v checks errs).providers =
        checks ++ (ps.filter (fun p => p.enabled)).map (providerCheckOf n) := by
  intro ps
  induction ps with
  | nil => intro v checks errs; simp [validateGo]
  | cons p rest ih =>
    intro v checks errs
    cases hpe : p.enabled with
    | false => simp [validateGo, hpe, ih, List.filter]
    | true =>
      cases hpv : p.validate n with
      | none => simp [validateGo, hpe, hpv, ih, List.filter, providerCheckOf]
      | some msg => simp [validateGo, hpe, hpv, ih, List.filter, providerCheckOf]

/-- C9 (amended): `validateNotificationForProviders` performs no send
(none of the definitions it unfolds to mentions `send` or
`sendWithRetry`); it reports one entry per **enabled** provider, each
carrying whether the notification is valid for it and handleable by
it; and the overall `valid` flag is true iff at least one enabled
provider both passes validation and can handle the notification (a
provider whose `validateNotification` throws is recorded with
`canHandle:false` and cannot make the report valid, even if its
`canHandle` is true). -/
theorem compat_report (providers : List Provider) (n : Notification) :
    (validateNotificationForProviders providers n).valid =
      providers.any (fun p => p.enabled && (p.validate n).isNone && p.canHandle n) ∧
    (validateNotificationForProviders providers n).providers =
      (providers.filter (fun p => p.enabled)).map (providerCheckOf n) := by
  constructor
  · rw [validateNotificationForProviders, validateGo_valid]
    simp
  · rw [validateNotificationForProviders, validateGo_providers]
    simp

/-- C9 counterexample: for a notification with neither title nor body,
the enabled provider `permissive` can handle it (`canHandle = true`),
yet the overall `valid` flag is false because `validateNotification`
throws — so "valid iff some enabled provider can handle" fails. -/
theorem compat_valid_counterexample :
    ((validateNotificationForProviders [permissive] emptyN).valid = false) ∧
    (([permissive] : List Provider).any
      (fun p => p.enabled && p.canHandle emptyN) = true) := by
  refine ⟨by decide, by decide⟩

/-- C5: contrary to the claim, `scheduleNotification` does not reject
a spec whose frequency is outside `{once, daily}` or whose timezone is
unknown — it registers and arms a Job (an unknown frequency silently
takes the `once` branch).  The checks the claim describes exist only
in `validateSchedule`, which `scheduleNotification` never calls: the
same two specs are rejected by `validateSchedule` (here with a
timezone oracle that knows exactly `UTC`). -/
theorem schedule_skips_validation :
    ((scheduleNotification runningEmpty sampleN weeklySpec ⟨none⟩ "job1" onceEnv1).1.jobs.length = 1) ∧
    ((scheduleNotification runningEmpty sampleN weeklySpec ⟨none⟩ "job1" onceEnv1).2 =
      .ok ⟨"job1", "2026-10-11 09:00:00 UTC", "weekly", "UTC", "0 9 11 10 *"⟩) ∧
    (validateSchedule (fun s => s == "UTC") weeklySpec =
      .error "Frequency must be \"once\" or \"daily\"") ∧
    ((scheduleNotification runningEmpty sampleN badTzSpec ⟨none⟩ "job2" onceEnv1).1.jobs.length = 1) ∧
    ((scheduleNotification runningEmpty sampleN badTzSpec ⟨none⟩ "job2" onceEnv1).2 =
      .ok ⟨"job2", "2026-10-11 09:00:00 UTC", "once", "Invalid/Zone", "0 9 11 10 *"⟩) ∧
    (validateSchedule (fun s => s == "UTC") badTzSpec = .error "Invalid timezone") := by
  refine ⟨by decide, by decide, by decide, by decide, by decide, by decide⟩

/-- C6 (amended): while the scheduler is running, the time strings
`"25:00"` and `""` are rejected with the time-format error before any
Job is registered (the state is returned unchanged); `"9:00"`,
however, matches the source's regex (the first hour digit is
optional), so it is **accepted** — the call succeeds and the Job is
registered under the given id. -/
theorem schedule_time_string_rejection (st : SchedState) (n : Notification)
    (options : DispatchOptions) (jobId : String) (env : OnceEnv)
    (hrun : st.running = true) :
    (scheduleNotification st n ⟨"25:00", some "UTC", some "once"⟩ options jobId env =
      (st, .error "Invalid time format. Use HH:MM format")) ∧
    (scheduleNotification st n ⟨"", some "UTC", some "once"⟩ options jobId env =
      (st, .error "Invalid time format. Use HH:MM format")) ∧
    ((scheduleNotification st n ⟨"9:00", some "UTC", some "once"⟩ options jobId env).2 =
      .ok ⟨jobId, env.scheduledFor, "once", "UTC",
        toString 0 ++ " " ++ toString 9 ++ " " ++ toString env.date ++ " " ++
          toString env.month ++ " *"⟩) ∧
    ((scheduleNotification st n ⟨"9:00", some "UTC", some "once"⟩ options jobId env).1.jobs =
      mapSet st.jobs jobId
        { id := jobId, title := n.title, bodyPreview := n.body.take 100,
          time := "9:00", timezone := "UTC", frequency := "once",
          cronExpression := toString 0 ++ " " ++ toString 9 ++ " " ++ toString env.date ++
            " " ++ toString env.month ++ " *",
          scheduledFor := env.scheduledFor, options := options, taskActive := true }) := by
  have h25 : (("25:00" : String) == "" || !timeFormatOk "25:00") = true := by decide
  have ht25 : timeFormatOk "25:00" = false := by decide
  have hemp : (("" : String) == "" || !timeFormatOk "") = true := by decide
  have h9 : (("9:00" : String) == "" || !timeFormatOk "9:00") = false := by decide
  have ht9 : timeFormatOk "9:00" = true := by decide
  have hp : parseTime "9:00" = (9, 0) := by decide
  have hfreq : (("once" : String) == "daily") = false := by decide
  refine ⟨?_, ?_, ?_, ?_⟩
  · simp [scheduleNotification, hrun, h25, ht25]
  · simp [scheduleNotification, hrun, hemp]
  · simp [scheduleNotification, hrun, h9, ht9, hp, hfreq]
  · simp [scheduleNotification, hrun, h9, ht9, hp, hfreq]

/-- C6 witness: the amended behaviour evaluated on a running scheduler
with an empty registry. -/
theorem schedule_time_string_rejection_witness :
    (scheduleNotification runningEmpty sampleN ⟨"25:00", some "UTC", some "once"⟩ ⟨none⟩ "jobA" onceEnv1 =
      (runningEmpty, .error "Invalid time format. Use HH:MM format")) ∧
    (scheduleNotification runningEmpty sampleN ⟨"", some "UTC", some "once"⟩ ⟨none⟩ "jobA" onceEnv1 =
      (runningEmpty, .error "Invalid time format. Use HH:MM format")) ∧
    ((scheduleNotification runningEmpty sampleN ⟨"9:00", some "UTC", some "once"⟩ ⟨none⟩ "jobA" onceEnv1).2 =
      .ok ⟨"jobA", onceEnv1.scheduledFor, "once", "UTC",
        toString 0 ++ " " ++ toString 9 ++ " " ++ toString onceEnv1.date ++ " " ++
          toString onceEnv1.month ++ " *"⟩) ∧
    ((scheduleNotification runningEmpty sampleN ⟨"9:00", some "UTC", some "once"⟩ ⟨none⟩ "jobA" onceEnv1).1.jobs =
      mapSet runningEmpty.jobs "jobA"
        { id := "jobA", title := sampleN.title, bodyPreview := sampleN.body.take 100,
          time := "9:00", timezone := "UTC", frequency := "once",
          cronExpression := toString 0 ++ " " ++ toString 9 ++ " " ++ toString onceEnv1.date ++
            " " ++ toString onceEnv1.month ++ " *",
          scheduledFor := onceEnv1.scheduledFor, options := ⟨none⟩, taskActive := true }) :=
  schedule_time_string_rejection runningEmpty sampleN ⟨none⟩ "jobA" onceEnv1 rfl

/-- C6 counterexample: `"9:00"` is not rejected — the schedule call
succeeds and a Job is registered. -/
theorem nine_oclock_accepted_counterexample :
    ((scheduleNotification runningEmpty sampleN ⟨"9:00", some "UTC", some "once"⟩ ⟨none⟩ "job1" onceEnv1).2 =
      .ok ⟨"job1", "2026-10-11 09:00:00 UTC", "once", "UTC", "0 9 11 10 *"⟩) ∧
    ((scheduleNotification runningEmpty sampleN ⟨"9:00", some "UTC", some "once"⟩ ⟨none⟩ "job1" onceEnv1).1.jobs.length = 1) := by
  refine ⟨by decide, by decide⟩

/-- C8: after the trigger of a registered Job fires — whether the
dispatched delivery succeeded or failed — a Job with frequency `once`
is removed from the registry and no longer appears in
`getActiveJobs()`, while a Job with frequency `daily` remains
registered and present.  (`hid` is the registry invariant that every
entry is stored under its own id, which `scheduleNotification`
establishes.) -/
theorem once_fired_removed_daily_remains (st : SchedState) (jobId : String)
    (job : SchedJob) (success : Bool)
    (hid : ∀ kv ∈ st.jobs, kv.2.id = kv.1)
    (hmem : (jobId, job) ∈ st.jobs) :
    (job.frequency = "once" →
      ((getActiveJobs (fireJob st job.frequency jobId success)).any
        (fun v => v.id == jobId)) = false) ∧
    (job.frequency = "daily" →
      ((getActiveJobs (fireJob st job.frequency jobId success)).any
        (fun v => v.id == jobId)) = true) := by
  constructor
  · intro hfreq
    rw [hfreq]
    have hany : st.jobs.any (fun kv => kv.1 == jobId) = true :=
      List.any_eq_true.mpr ⟨(jobId, job), hmem, by simp⟩
    have hfire : fireJob st "once" jobId success = (removeJob st jobId).1 := by
      cases success <;> simp [fireJob]
    rw [hfire, removeJob, if_pos hany]
    rw [List.any_eq_false]
    intro v hv
    simp only [getActiveJobs, List.mem_map] at hv
    obtain ⟨kv, hkv, hveq⟩ := hv
    obtain ⟨hkv1, hkv2⟩ := List.mem_filter.mp hkv
    have : kv.2.id = kv.1 := hid kv hkv1
    subst hveq
    simp only [this]
    simpa using hkv2
  · intro hfreq
    rw [hfreq]
    have hfire : fireJob st "daily" jobId success = st := by
      cases success <;> simp [fireJob]
    rw [hfire]
    refine List.any_eq_true.mpr ⟨⟨job.id, job.title, job.bodyPreview, job.time, job.timezone,
      job.frequency, job.cronExpression, job.scheduledFor⟩, ?_, ?_⟩
    · exact List.mem_map.mpr ⟨(jobId, job), hmem, rfl⟩
    · have : job.id = jobId := hid (jobId, job) hmem
      simp [this]

/-- C8 witness: a fired `once` job disappears from the active list
(even on delivery failure); a fired `daily` job stays. -/
theorem once_fired_removed_daily_remains_witness :
    ((getActiveJobs (fireJob twoJobState onceJob.frequency "j1" false)).any
      (fun v => v.id == "j1")) = false ∧
    ((getActiveJobs (fireJob twoJobState dailyJob.frequency "j2" true)).any
      (fun v => v.id == "j2")) = true :=
  ⟨(once_fired_removed_daily_remains twoJobState "j1" onceJob false
      (by decide) (by decide)).1 rfl,
   (once_fired_removed_daily_remains twoJobState "j2" dailyJob true
      (by decide) (by decide)).2 rfl⟩

/-- Any scheduler operation other than `start()` keeps a stopped,
empty scheduler stopped and empty: scheduling fails its running guard,
cancellation and firing find nothing to remove, `stop()` is
idempotent. -/
theorem applyOp_preserves_stopped (st : SchedState) (op : SchedOp)
    (h1 : st.running = false) (h2 : st.jobs = []) :
    (applyOp st op).running = false ∧ (applyOp st op).jobs = [] := by
  cases op with
  | schedule n input options jobId env =>
    simp [applyOp, scheduleNotification, h1, h2]
  | cancel jobId =>
    simp [applyOp, removeJob, h1, h2]
  | fire frequency jobId success =>
    by_cases hf : (frequency == "once") = true
    · cases success <;> simp [applyOp, fireJob, hf, removeJob, h1, h2]
    · cases success <;> simp [applyOp, fireJob, hf, h1, h2]
  | stopOp => simp [applyOp, SchedState.stop]

theorem foldl_preserves_stopped :
    ∀ (ops : List SchedOp) (st : SchedState),
      st.running = false → st.jobs = [] →
      (ops.foldl applyOp st).running = false ∧ (ops.foldl applyOp st).jobs = [] := by
  intro ops
  induction ops with
  | nil => intro st h1 h2; exact ⟨h1, h2⟩
  | cons op rest ih =>
    intro st h1 h2
    obtain ⟨h1', h2'⟩ := applyOp_preserves_stopped st op h1 h2
    simpa [List.foldl_cons] using ih (applyOp st op) h1' h2'

/-- C10: calling `scheduleNotification` while the scheduler is not
running (before `start()` or after `stop()`) throws
`"Scheduler service is not running"` synchronously, leaving the state
— in particular the registry — unchanged; `stop()` clears the registry
and marks the scheduler stopped; and after `stop()` the registry stays
empty under any sequence of non-`start` operations. -/
theorem scheduler_not_running_guard (st : SchedState) (n : Notification)
    (input : ScheduleInput) (options : DispatchOptions) (jobId : String)
    (env : OnceEnv) (hrun : st.running = false) :
    scheduleNotification st n input options jobId env =
      (st, .error "Scheduler service is not running") ∧
    (SchedState.stop st).jobs = [] ∧
    (SchedState.stop st).running = false ∧
    ∀ ops : List SchedOp, (ops.foldl applyOp (SchedState.stop st)).jobs = [] := by
  refine ⟨?_, rfl, rfl, ?_⟩
  · simp [scheduleNotification, hrun]
  · intro ops
    exact (foldl_preserves_stopped ops (SchedState.stop st) rfl rfl).2

/-- C10 witness: the guard evaluated on a stopped scheduler, and a
cleared registry surviving a cancel, a firing and another stop. -/
theorem scheduler_not_running_guard_witness :
    scheduleNotification stoppedState sampleN ⟨"09:00", some "UTC", some "once"⟩
        ⟨none⟩ "job1" onceEnv1 =
      (stoppedState, .error "Scheduler service is not running") ∧
    (([SchedOp.cancel "j1", SchedOp.fire "once" "j1" true, SchedOp.stopOp]).foldl
        applyOp (SchedState.stop stoppedState)).jobs = [] := by
  obtain ⟨h1, _, _, h4⟩ := scheduler_not_running_guard stoppedState sampleN
    ⟨"09:00", some "UTC", some "once"⟩ ⟨none⟩ "job1" onceEnv1 rfl
  exact ⟨h1, h4 _⟩
